import Mathlib

/-!
Verification of the transport and stream-demultiplexing core of the
shiplift docker client.  Rust sources are shallowly embedded as Lean
functions: machine integers become `Nat`, byte buffers become `List Nat`,
strings become `String`/`List Char`, and fallible operations return
`Option`/`Except`.  External crates (hyper, serde_json, the Rust standard
library) are modelled by executable Lean functions documented at each
definition.  Modules that lib.rs declares but whose sources are absent
(`errors.rs`, `tty.rs`) are modelled from the specification, as noted on
the corresponding definitions.
-/

namespace Shiplift

/-- Modelled from the spec: `errors.rs` is declared in lib.rs (`pub mod errors`)
but its source is absent.  Variants follow the error taxonomy of spec §7
together with the constructors visibly used by transport.rs and lib.rs
(`Error::Fault { code, message }`, `Error::ConnectionNotUpgraded`,
serde/json errors, network errors).  `configuration` is the spec's
ConfigurationError; the sources never construct it. -/
inductive Error where
  | fault (code : Nat) (message : String)
  | connectionNotUpgraded
  | serdeJson
  | network
  | truncatedStream
  | configuration
deriving DecidableEq, Repr

/-! ## JSON values and parsing (model of the external serde_json crate)

transport.rs parses error bodies with `serde_json::from_str::<ErrorResponse>`
and lib.rs streams values with `serde_json::Deserializer::from_slice(..)
.into_iter()`.  serde_json is an external dependency; it is modelled by an
executable recursive-descent parser over `List Char`.  The model covers
objects, arrays, strings with the single-character escapes, integer
numbers, booleans and null; fraction/exponent numbers and `\u` escapes are
outside the model (no claim depends on them). -/

inductive Json where
  | null
  | bool (b : Bool)
  | num (n : Int)
  | str (s : String)
  | arr (elems : List Json)
  | obj (fields : List (String × Json))

def isWsChar (c : Char) : Bool :=
  c = ' ' || c = '\n' || c = '\t' || c = '\r'

def skipWs (cs : List Char) : List Char :=
  cs.dropWhile isWsChar

def isDigitChar (c : Char) : Bool :=
  48 ≤ c.toNat && c.toNat ≤ 57

def digitVal (c : Char) : Nat :=
  c.toNat - 48

def takeDigits : List Char → List Char × List Char
  | [] => ([], [])
  | c :: rest =>
    if isDigitChar c then
      let p := takeDigits rest
      (c :: p.1, p.2)
    else ([], c :: rest)

def digitsToNat (ds : List Char) : Nat :=
  ds.foldl (fun a c => a * 10 + digitVal c) 0

/-- The two-character escape table of JSON strings, written as (escape
letter, decoded character) pairs. -/
def escPairs : List (Char × Char) :=
  [('"', '"'), ('\\', '\\'), ('/', '/'), ('n', '\n'), ('t', '\t'),
   ('r', '\r'), ('b', Char.ofNat 8), ('f', Char.ofNat 12)]

def escChar (e : Char) : Option Char :=
  (escPairs.find? fun p => p.1 = e).map Prod.snd

/-- Parse the body of a JSON string literal, the opening quote already
consumed; returns the decoded characters and the input past the closing
quote. -/
def parseStrBody : List Char → Option (List Char × List Char)
  | [] => none
  | c :: rest =>
    if c = '"' then some ([], rest)
    else if c = '\\' then
      match rest with
      | [] => none
      | e :: rest₁ =>
        match escChar e, parseStrBody rest₁ with
        | some ec, some (s, r) => some (ec :: s, r)
        | _, _ => none
    else if c.toNat < 32 then none
    else
      match parseStrBody rest with
      | some (s, r) => some (c :: s, r)
      | none => none

/-- Strip an expected literal continuation (the tail of `null`, `true`,
`false`) off the input. -/
def stripLit : List Char → List Char → Option (List Char)
  | [], rest => some rest
  | _ :: _, [] => none
  | k :: ks, c :: rest => if c = k then stripLit ks rest else none

/-- Parsing mode: a whole value, the items of an array after `[`, or the
members of an object after `{` (both once the empty case is excluded). -/
inductive PMode where
  | value
  | arrItems
  | objItems

/-- Fuel-indexed recursive-descent JSON parser (model of serde_json's
deserializer).  Returns the parsed value and the remaining input. -/
def parseP : Nat → PMode → List Char → Option (Json × List Char)
  | 0, _, _ => none
  | fuel + 1, .value, cs =>
    match skipWs cs with
    | [] => none
    | c :: rest =>
      if c = 'n' then (stripLit ['u', 'l', 'l'] rest).map fun r => (.null, r)
      else if c = 't' then (stripLit ['r', 'u', 'e'] rest).map fun r => (.bool true, r)
      else if c = 'f' then (stripLit ['a', 'l', 's', 'e'] rest).map fun r => (.bool false, r)
      else if c = '"' then
        match parseStrBody rest with
        | some (s, r) => some (.str ⟨s⟩, r)
        | none => none
      else if c = '[' then
        match skipWs rest with
        | ']' :: r => some (.arr [], r)
        | cs₁ => parseP fuel .arrItems cs₁
      else if c = '\x7b' then
        match skipWs rest with
        | '\x7d' :: r => some (.obj [], r)
        | cs₁ => parseP fuel .objItems cs₁
      else if c = '-' then
        let p := takeDigits rest
        if p.1.isEmpty then none else some (.num (-(digitsToNat p.1 : Int)), p.2)
      else if isDigitChar c then
        let p := takeDigits (c :: rest)
        some (.num (digitsToNat p.1 : Int), p.2)
      else none
  | fuel + 1, .arrItems, cs =>
    match parseP fuel .value cs with
    | some (v, rest) =>
      (match skipWs rest with
       | ',' :: rest₁ =>
         (match parseP fuel .arrItems rest₁ with
          | some (.arr vs, r) => some (.arr (v :: vs), r)
          | _ => none)
       | ']' :: rest₁ => some (.arr [v], rest₁)
       | _ => none)
    | none => none
  | fuel + 1, .objItems, cs =>
    match skipWs cs with
    | '"' :: rest =>
      (match parseStrBody rest with
       | some (k, rest₁) =>
         (match skipWs rest₁ with
          | ':' :: rest₂ =>
            (match parseP fuel .value rest₂ with
             | some (v, rest₃) =>
               (match skipWs rest₃ with
                | ',' :: rest₄ =>
                  (match parseP fuel .objItems rest₄ with
                   | some (.obj fs, r) => some (.obj ((⟨k⟩, v) :: fs), r)
                   | _ => none)
                | '}' :: rest₄ => some (.obj [(⟨k⟩, v)], rest₄)
                | _ => none)
             | none => none)
          | _ => none)
       | none => none)
    | _ => none

/-- Model of `serde_json::from_str`: a single complete value followed only
by whitespace. -/
def parseDoc (s : String) : Option Json :=
  match parseP (2 * s.data.length + 2) .value s.data with
  | some (v, rest) => if (skipWs rest).isEmpty then some v else none
  | none => none

/-! ## RequestExecutor: status classification (src/transport.rs) -/

/-- Embeds `Transport::get_error_message` (src/transport.rs:426-430):
deserialize the body as the `ErrorResponse { message: String }` struct and
keep its `message` field; any parse failure yields `none`. -/
def get_error_message (body : String) : Option String :=
  match parseDoc body with
  | some (.obj fields) =>
    match List.lookup "message" fields with
    | some (.str s) => some s
    | _ => none
  | _ => none

/-- Model of hyper's `StatusCode::canonical_reason` (external dependency):
the IANA reason phrase of a status code, `none` for unregistered codes.
The table lists the codes relevant to the claims plus the common ones. -/
def canonicalReason (code : Nat) : Option String :=
  match code with
  | 100 => some "Continue"
  | 101 => some "Switching Protocols"
  | 200 => some "OK"
  | 201 => some "Created"
  | 202 => some "Accepted"
  | 204 => some "No Content"
  | 206 => some "Partial Content"
  | 301 => some "Moved Permanently"
  | 302 => some "Found"
  | 304 => some "Not Modified"
  | 400 => some "Bad Request"
  | 401 => some "Unauthorized"
  | 403 => some "Forbidden"
  | 404 => some "Not Found"
  | 405 => some "Method Not Allowed"
  | 406 => some "Not Acceptable"
  | 408 => some "Request Timeout"
  | 409 => some "Conflict"
  | 410 => some "Gone"
  | 500 => some "Internal Server Error"
  | 501 => some "Not Implemented"
  | 502 => some "Bad Gateway"
  | 503 => some "Service Unavailable"
  | 504 => some "Gateway Timeout"
  | _ => none

/-- An HTTP response as seen by `get_body`: numeric status and the body.
The body is kept as a `String` (the source buffers it and decodes UTF-8
before interpreting it). -/
structure HttpResponse where
  status : Nat
  body : String
deriving DecidableEq

/-- Outcome of `Transport::get_body`: a panic (from the `expect` on request
building), the response body handle passed through on success, or an
error. -/
inductive ReqOutcome where
  | panicked (msg : String)
  | body (b : String)
  | fault (e : Error)
deriving DecidableEq, Repr

/-- Embeds the status-classification arm of `Transport::get_body`
(src/transport.rs:259-281): statuses 200/201/101/204 pass the body through
un-consumed; any other status buffers the body and produces
`Error::Fault` whose message is `get_error_message` when it succeeds,
otherwise the canonical reason phrase, otherwise `"unknown error code"`. -/
def status_classify (status : Nat) (body : String) : ReqOutcome :=
  if status = 200 ∨ status = 201 ∨ status = 101 ∨ status = 204 then
    .body body
  else
    .fault (.fault status
      ((get_error_message body).getD ((canonicalReason status).getD "unknown error code")))

/-! ## FrameDemultiplexer (modelled from the spec)

Modelled from the spec: lib.rs declares `pub mod tty` and container.rs /
exec.rs decode multiplexed streams with `tty::decode`, but `tty.rs` is not
among the sources.  The decoder below follows spec §4.5 and §6 verbatim:
an 8-byte header `[tag:1][reserved:3][length:4 big-endian]` followed by
`length` payload bytes; states `AwaitingHeader` and
`AwaitingPayload{tag, remaining}` over a residual buffer; on each chunk,
append to the residual then consume as many complete headers/payloads as
possible. -/

/-- One decoded frame: the stream tag byte (0 = stdin, 1 = stdout,
2 = stderr) and the payload bytes. -/
structure Frame where
  tag : Nat
  payload : List Nat
deriving DecidableEq, Repr

/-- The demultiplexer state machine of spec §4.5. -/
inductive DemuxState where
  | awaitingHeader
  | awaitingPayload (tag : Nat) (remaining : Nat)
deriving DecidableEq, Repr

/-- Result of draining the residual buffer: frames emitted in order, the
final state, and the bytes left in the residual buffer. -/
structure DrainOut where
  frames : List Frame
  st : DemuxState
  rest : List Nat
deriving DecidableEq, Repr

/-- Big-endian value of a byte list (applied to the 4 length bytes). -/
def be32 (bs : List Nat) : Nat :=
  bs.foldl (fun a b => a * 256 + b) 0

/-- Fuel-indexed drain loop (spec §4.5): in `AwaitingHeader` consume 8
bytes into tag and length when available; in `AwaitingPayload` consume
`remaining` bytes into a frame when available; otherwise stop and keep the
residual. -/
def drainF : Nat → DemuxState → List Nat → DrainOut
  | 0, s, r => ⟨[], s, r⟩
  | fuel + 1, .awaitingHeader, r =>
    if 8 ≤ r.length then
      drainF fuel (.awaitingPayload ((r.take 8).headD 0) (be32 ((r.take 8).drop 4))) (r.drop 8)
    else ⟨[], .awaitingHeader, r⟩
  | fuel + 1, .awaitingPayload tag len, r =>
    if len ≤ r.length then
      let o := drainF fuel .awaitingHeader (r.drop len)
      ⟨⟨tag, r.take len⟩ :: o.frames, o.st, o.rest⟩
    else ⟨[], .awaitingPayload tag len, r⟩

/-- Fuel-ordering rank: the payload state can make one step without
consuming bytes. -/
def rank : DemuxState → Nat
  | .awaitingHeader => 0
  | .awaitingPayload _ _ => 1

theorem rank_le_one (s : DemuxState) : rank s ≤ 1 := by
  cases s <;> simp [rank]

/-- Drain the residual buffer with canonical (always sufficient) fuel. -/
def drain (s : DemuxState) (r : List Nat) : DrainOut :=
  drainF (r.length + 2) s r

theorem drainF_succ_header (fuel : Nat) (r : List Nat) :
    drainF (fuel + 1) .awaitingHeader r =
      if 8 ≤ r.length then
        drainF fuel (.awaitingPayload ((r.take 8).headD 0) (be32 ((r.take 8).drop 4))) (r.drop 8)
      else ⟨[], .awaitingHeader, r⟩ := rfl

theorem drainF_succ_payload (fuel tag len : Nat) (r : List Nat) :
    drainF (fuel + 1) (.awaitingPayload tag len) r =
      if len ≤ r.length then
        ⟨⟨tag, r.take len⟩ :: (drainF fuel .awaitingHeader (r.drop len)).frames,
         (drainF fuel .awaitingHeader (r.drop len)).st,
         (drainF fuel .awaitingHeader (r.drop len)).rest⟩
      else ⟨[], .awaitingPayload tag len, r⟩ := rfl

/-- With sufficient fuel the drain loop's answer does not depend on the
exact fuel amount. -/
theorem drainF_irrel : ∀ f g : Nat, ∀ s : DemuxState, ∀ r : List Nat,
    r.length + rank s + 1 ≤ f → r.length + rank s + 1 ≤ g →
    drainF f s r = drainF g s r := by
  intro f
  induction f with
  | zero => intro g s r hf hg; omega
  | succ f ih =>
    intro g s r hf hg
    cases g with
    | zero => omega
    | succ g =>
      cases s with
      | awaitingHeader =>
        rw [drainF_succ_header, drainF_succ_header]
        by_cases h : 8 ≤ r.length
        · rw [if_pos h, if_pos h]
          exact ih _ _ _ (by simp only [rank, List.length_drop] at *; omega)
            (by simp only [rank, List.length_drop] at *; omega)
        · rw [if_neg h, if_neg h]
      | awaitingPayload tag len =>
        rw [drainF_succ_payload, drainF_succ_payload]
        by_cases h : len ≤ r.length
        · rw [if_pos h, if_pos h,
            ih g .awaitingHeader (r.drop len) (by simp only [rank, List.length_drop] at *; omega)
              (by simp only [rank, List.length_drop] at *; omega)]
        · rw [if_neg h, if_neg h]

theorem drain_header_step (r : List Nat) (h : 8 ≤ r.length) :
    drain .awaitingHeader r =
      drain (.awaitingPayload ((r.take 8).headD 0) (be32 ((r.take 8).drop 4))) (r.drop 8) := by
  have e : drain .awaitingHeader r = drainF (r.length + 1 + 1) .awaitingHeader r := rfl
  rw [e, drainF_succ_header, if_pos h]
  exact drainF_irrel _ _ _ _ (by simp only [rank, List.length_drop]; omega)
    (by simp only [rank, List.length_drop]; omega)

theorem drain_header_stuck (r : List Nat) (h : r.length < 8) :
    drain .awaitingHeader r = ⟨[], .awaitingHeader, r⟩ := by
  have e : drain .awaitingHeader r = drainF (r.length + 1 + 1) .awaitingHeader r := rfl
  rw [e, drainF_succ_header, if_neg (by omega)]

theorem drain_payload_step (tag len : Nat) (r : List Nat) (h : len ≤ r.length) :
    drain (.awaitingPayload tag len) r =
      ⟨⟨tag, r.take len⟩ :: (drain .awaitingHeader (r.drop len)).frames,
       (drain .awaitingHeader (r.drop len)).st,
       (drain .awaitingHeader (r.drop len)).rest⟩ := by
  have e : drain (.awaitingPayload tag len) r =
      drainF (r.length + 1 + 1) (.awaitingPayload tag len) r := rfl
  rw [e, drainF_succ_payload, if_pos h]
  have irr : drainF (r.length + 1) .awaitingHeader (r.drop len) =
      drain .awaitingHeader (r.drop len) :=
    drainF_irrel _ _ _ _ (by simp only [rank, List.length_drop]; omega)
      (by simp only [rank, List.length_drop]; omega)
  rw [irr]

theorem drain_payload_stuck (tag len : Nat) (r : List Nat) (h : r.length < len) :
    drain (.awaitingPayload tag len) r = ⟨[], .awaitingPayload tag len, r⟩ := by
  have e : drain (.awaitingPayload tag len) r =
      drainF (r.length + 1 + 1) (.awaitingPayload tag len) r := rfl
  rw [e, drainF_succ_payload, if_neg (by omega)]

/-- Draining `a ++ c` is the same as draining `a`, then draining the
leftover residual with `c` appended: the loop's progress does not depend
on where the chunk boundary falls. -/
theorem drain_append : ∀ n : Nat, ∀ s : DemuxState, ∀ a c : List Nat,
    2 * a.length + rank s ≤ n →
    drain s (a ++ c) =
      ⟨(drain s a).frames ++ (drain (drain s a).st ((drain s a).rest ++ c)).frames,
       (drain (drain s a).st ((drain s a).rest ++ c)).st,
       (drain (drain s a).st ((drain s a).rest ++ c)).rest⟩ := by
  intro n
  induction n with
  | zero =>
    intro s a c hn
    have ha : a.length = 0 := by omega
    have hs : rank s = 0 := by omega
    have hs' : s = .awaitingHeader := by
      cases s with
      | awaitingHeader => rfl
      | awaitingPayload t l => simp [rank] at hs
    subst hs'
    rw [List.eq_nil_of_length_eq_zero ha]
    rw [drain_header_stuck [] (by simp)]
    simp
  | succ n ih =>
    intro s a c hn
    cases s with
    | awaitingHeader =>
      by_cases h : 8 ≤ a.length
      · have hac : 8 ≤ (a ++ c).length := by simp [List.length_append]; omega
        rw [drain_header_step a h, drain_header_step (a ++ c) hac]
        rw [List.take_append_of_le_length (by omega), List.drop_append_of_le_length (by omega)]
        exact ih _ _ _ (by simp only [rank, List.length_drop] at *; omega)
      · rw [drain_header_stuck a (by omega)]
        simp
    | awaitingPayload tag len =>
      by_cases h : len ≤ a.length
      · have hac : len ≤ (a ++ c).length := by simp [List.length_append]; omega
        rw [drain_payload_step tag len a h, drain_payload_step tag len (a ++ c) hac]
        rw [List.take_append_of_le_length h, List.drop_append_of_le_length h]
        have := ih .awaitingHeader (a.drop len) c
          (by simp only [rank, List.length_drop] at *; omega)
        rw [this]
        simp
      · rw [drain_payload_stuck tag len a (by omega)]
        simp

/-- `drain_append` with the measure bookkeeping discharged. -/
theorem drain_append' (s : DemuxState) (a c : List Nat) :
    drain s (a ++ c) =
      ⟨(drain s a).frames ++ (drain (drain s a).st ((drain s a).rest ++ c)).frames,
       (drain (drain s a).st ((drain s a).rest ++ c)).st,
       (drain (drain s a).st ((drain s a).rest ++ c)).rest⟩ :=
  drain_append (2 * a.length + rank s) s a c (le_refl _)

/-- The residual left by `drain` is itself fully drained: draining it
again makes no progress. -/
theorem drain_idem : ∀ n : Nat, ∀ s : DemuxState, ∀ r : List Nat,
    2 * r.length + rank s ≤ n →
    drain (drain s r).st (drain s r).rest = ⟨[], (drain s r).st, (drain s r).rest⟩ := by
  intro n
  induction n with
  | zero =>
    intro s r hn
    have hr : r.length = 0 := by omega
    have hs : s = .awaitingHeader := by
      cases s with
      | awaitingHeader => rfl
      | awaitingPayload t l => simp only [rank] at hn; omega
    subst hs
    rw [drain_header_stuck r (by omega)]
    exact drain_header_stuck r (by omega)
  | succ n ih =>
    intro s r hn
    cases s with
    | awaitingHeader =>
      by_cases h : 8 ≤ r.length
      · rw [drain_header_step r h]
        exact ih _ _ (by simp only [rank, List.length_drop] at *; omega)
      · rw [drain_header_stuck r (by omega)]
        exact drain_header_stuck r (by omega)
    | awaitingPayload tag len =>
      by_cases h : len ≤ r.length
      · rw [drain_payload_step tag len r h]
        have := ih .awaitingHeader (r.drop len) (by simp only [rank, List.length_drop] at *; omega)
        exact this
      · rw [drain_payload_stuck tag len r (by omega)]
        exact drain_payload_stuck tag len r (by omega)

theorem drain_idem' (s : DemuxState) (r : List Nat) :
    drain (drain s r).st (drain s r).rest = ⟨[], (drain s r).st, (drain s r).rest⟩ :=
  drain_idem (2 * r.length + rank s) s r (le_refl _)

/-- Feed a list of delivery chunks through the demultiplexer (spec §4.5:
on each incoming chunk, append to the residual buffer and drain). -/
def runChunks (s : DemuxState) (r : List Nat) : List (List Nat) → DrainOut
  | [] => ⟨[], s, r⟩
  | c :: cs =>
    let o := drain s (r ++ c)
    let o' := runChunks o.st o.rest cs
    ⟨o.frames ++ o'.frames, o'.st, o'.rest⟩

/-- Provided the starting residual is already fully drained, feeding the
chunks one by one is the same as draining their concatenation. -/
theorem runChunks_eq_drain_flatten : ∀ cs : List (List Nat), ∀ s : DemuxState, ∀ r : List Nat,
    drain s r = ⟨[], s, r⟩ →
    runChunks s r cs = drain s (r ++ cs.flatten) := by
  intro cs
  induction cs with
  | nil =>
    intro s r h
    simp only [runChunks, List.flatten_nil, List.append_nil]
    exact h.symm
  | cons c cs ih =>
    intro s r h
    simp only [runChunks, List.flatten_cons]
    have hidem := drain_idem' s (r ++ c)
    have ih' := ih (drain s (r ++ c)).st (drain s (r ++ c)).rest hidem
    rw [ih']
    rw [show r ++ (c ++ cs.flatten) = (r ++ c) ++ cs.flatten from by simp]
    rw [drain_append' s (r ++ c) cs.flatten]

/-- The demultiplexer applied to a stream of delivery chunks, starting in
`AwaitingHeader` with an empty residual buffer. -/
def demux (chunks : List (List Nat)) : DrainOut :=
  runChunks .awaitingHeader [] chunks

/-- The ordered list of frames the demultiplexer emits. -/
def demux_frames (chunks : List (List Nat)) : List Frame :=
  (demux chunks).frames

theorem demux_eq_drain_flatten (chunks : List (List Nat)) :
    demux chunks = drain .awaitingHeader chunks.flatten := by
  have h0 : drain .awaitingHeader ([] : List Nat) = ⟨[], .awaitingHeader, []⟩ :=
    drain_header_stuck [] (by simp)
  have := runChunks_eq_drain_flatten chunks .awaitingHeader [] h0
  simpa [demux] using this

/-- C2: For every sequence of delivery chunks the FrameDemultiplexer
produces the same ordered list of (tag, payload) pairs as when the whole
byte stream arrives as one chunk; in particular, splitting a byte sequence
at any offset into two chunks yields output identical to delivering it
unsplit, for all offsets.  (Proved for all byte streams, which subsumes
all sequences of valid frames.) -/
theorem c2_chunk_boundary_independence :
    (∀ chunks : List (List Nat), demux_frames chunks = demux_frames [chunks.flatten]) ∧
    (∀ bs : List Nat, ∀ i : Nat, demux_frames [bs.take i, bs.drop i] = demux_frames [bs]) := by
  constructor
  · intro chunks
    simp only [demux_frames, demux_eq_drain_flatten]
    simp
  · intro bs i
    simp only [demux_frames, demux_eq_drain_flatten]
    simp [List.take_append_drop]

/-! ## C3: truncation behaviour of the demultiplexer -/

/-- Big-endian 4-byte encoding of a payload length. -/
def encode32 (n : Nat) : List Nat :=
  [n / 16777216 % 256, n / 65536 % 256, n / 256 % 256, n % 256]

/-- The wire encoding of one frame (spec §6): 8-byte header
`[tag][0][0][0][length, big-endian]` followed by the payload. -/
def encode_frame (f : Frame) : List Nat :=
  f.tag :: 0 :: 0 :: 0 :: (encode32 f.payload.length ++ f.payload)

def encode_frames : List Frame → List Nat
  | [] => []
  | f :: fs => encode_frame f ++ encode_frames fs

theorem be32_encode32 (n : Nat) (h : n < 4294967296) : be32 (encode32 n) = n := by
  simp only [be32, encode32, List.foldl]
  omega

/-- Draining the encoding of a complete frame emits exactly that frame and
continues with the remaining bytes. -/
theorem drain_encode_frame (f : Frame) (rest : List Nat)
    (h : f.payload.length < 4294967296) :
    drain .awaitingHeader (encode_frame f ++ rest) =
      ⟨f :: (drain .awaitingHeader rest).frames,
       (drain .awaitingHeader rest).st,
       (drain .awaitingHeader rest).rest⟩ := by
  have hlen : (encode_frame f ++ rest).length = 8 + f.payload.length + rest.length := by
    simp [encode_frame, encode32, List.length_append]
    omega
  rw [drain_header_step (encode_frame f ++ rest) (by omega)]
  have htake : (encode_frame f ++ rest).take 8 =
      [f.tag, 0, 0, 0] ++ encode32 f.payload.length := by
    simp [encode_frame, encode32, List.take]
  have hdrop : (encode_frame f ++ rest).drop 8 = f.payload ++ rest := by
    simp [encode_frame, encode32, List.drop]
  rw [htake, hdrop]
  have hhead : (([f.tag, 0, 0, 0] ++ encode32 f.payload.length).headD 0) = f.tag := by
    simp
  have hbe : be32 (([f.tag, 0, 0, 0] ++ encode32 f.payload.length).drop 4) =
      f.payload.length := by
    simp only [encode32]
    simp [List.drop]
    exact be32_encode32 _ h
  rw [hhead, hbe]
  rw [drain_payload_step f.tag f.payload.length (f.payload ++ rest)
    (by simp [List.length_append])]
  rw [List.take_left, List.drop_left]

/-- Draining the encoding of a list of complete frames emits exactly those
frames, then continues with the remaining bytes. -/
theorem drain_encode_frames : ∀ fs : List Frame, ∀ rest : List Nat,
    (∀ f ∈ fs, f.payload.length < 4294967296) →
    drain .awaitingHeader (encode_frames fs ++ rest) =
      ⟨fs ++ (drain .awaitingHeader rest).frames,
       (drain .awaitingHeader rest).st,
       (drain .awaitingHeader rest).rest⟩ := by
  intro fs
  induction fs with
  | nil => intro rest _; simp [encode_frames]
  | cons f fs ih =>
    intro rest h
    have h1 : f.payload.length < 4294967296 := h f (by simp)
    have h2 : ∀ g ∈ fs, g.payload.length < 4294967296 := fun g hg => h g (by simp [hg])
    simp only [encode_frames, List.append_assoc]
    rw [drain_encode_frame f (encode_frames fs ++ rest) h1]
    rw [ih rest h2]
    simp

/-- Termination classification of spec §4.5: ending in `AwaitingHeader`
with an empty residual buffer is a clean end; any other final state is a
truncated stream, reported as a terminal `TruncatedStreamError` after the
frames already emitted. -/
def demux_outcome (chunks : List (List Nat)) : List Frame × Option Error :=
  let o := demux chunks
  (o.frames, if o.st = DemuxState.awaitingHeader ∧ o.rest = [] then none
             else some .truncatedStream)

theorem demux_single (c : List Nat) :
    demux [c] = drain .awaitingHeader c := by
  rw [demux_eq_drain_flatten]
  simp

/-- C3: a stream that is the encoding of complete frames ends cleanly with
exactly those frames and no error; a stream ending mid-header (fewer than
8 residual header bytes, e.g. only 5) or mid-payload (fewer residual bytes
than the declared length) emits exactly the complete frames seen before
the truncation point, no frame for the incomplete frame, and one terminal
TruncatedStreamError. -/
theorem c3_truncated_stream :
    (∀ fs : List Frame, (∀ f ∈ fs, f.payload.length < 4294967296) →
      demux_outcome [encode_frames fs] = (fs, none)) ∧
    (∀ fs : List Frame, ∀ t : List Nat, (∀ f ∈ fs, f.payload.length < 4294967296) →
      0 < t.length → t.length < 8 →
      demux_outcome [encode_frames fs ++ t] = (fs, some .truncatedStream)) ∧
    (∀ fs : List Frame, ∀ tag len : Nat, ∀ p : List Nat,
      (∀ f ∈ fs, f.payload.length < 4294967296) → len < 4294967296 → p.length < len →
      demux_outcome [encode_frames fs ++ (tag :: 0 :: 0 :: 0 :: encode32 len) ++ p] =
        (fs, some .truncatedStream)) ∧
    demux_outcome [[0, 0, 0, 0, 0]] = ([], some .truncatedStream) ∧
    demux_outcome [[1, 0, 0, 0, 0, 0, 0, 4, 170, 187]] = ([], some .truncatedStream) := by
  refine ⟨?_, ?_, ?_, ?_, ?_⟩
  · intro fs h
    simp only [demux_outcome, demux_single]
    rw [show encode_frames fs = encode_frames fs ++ [] from (List.append_nil _).symm,
      drain_encode_frames fs [] h]
    rw [drain_header_stuck [] (by simp)]
    simp
  · intro fs t h ht1 ht2
    simp only [demux_outcome, demux_single]
    rw [drain_encode_frames fs t h]
    rw [drain_header_stuck t (by omega)]
    have htne : t ≠ [] := by
      cases t with
      | nil => simp at ht1
      | cons a t => simp
    simp [htne]
  · intro fs tag len p h hlen hp
    simp only [demux_outcome, demux_single]
    rw [List.append_assoc]
    rw [drain_encode_frames fs _ h]
    have hhdrlen : ((tag :: 0 :: 0 :: 0 :: encode32 len) ++ p).length = 8 + p.length := by
      simp [encode32, List.length_append]
      omega
    rw [drain_header_step _ (by omega)]
    have htake : ((tag :: 0 :: 0 :: 0 :: encode32 len) ++ p).take 8 =
        tag :: 0 :: 0 :: 0 :: encode32 len := by
      simp [encode32, List.take]
    have hdrop : ((tag :: 0 :: 0 :: 0 :: encode32 len) ++ p).drop 8 = p := by
      simp [encode32, List.drop]
    rw [htake, hdrop]
    have hhead : ((tag :: 0 :: 0 :: 0 :: encode32 len).headD 0) = tag := by simp
    have hbe : be32 ((tag :: 0 :: 0 :: 0 :: encode32 len).drop 4) = len := by
      simp only [List.drop]
      exact be32_encode32 _ hlen
    rw [hhead, hbe]
    rw [drain_payload_stuck tag len p (by omega)]
    simp
  · decide
  · decide

/-- Witness for C3 at concrete inputs: the two-frame encoding
`stdout "AB"`, `stderr "C"` decodes cleanly to exactly those frames, and
appending a 5-byte partial header to the first frame's encoding yields
that frame plus a terminal TruncatedStreamError. -/
theorem c3_truncated_stream_witness :
    demux_outcome [encode_frames [⟨1, [65, 66]⟩, ⟨2, [67]⟩]] =
      ([⟨1, [65, 66]⟩, ⟨2, [67]⟩], none) ∧
    demux_outcome [encode_frames [⟨1, [65, 66]⟩] ++ [2, 0, 0, 0, 0]] =
      ([⟨1, [65, 66]⟩], some .truncatedStream) := by
  constructor
  · exact c3_truncated_stream.1 [⟨1, [65, 66]⟩, ⟨2, [67]⟩] (by decide)
  · exact c3_truncated_stream.2.1 [⟨1, [65, 66]⟩] [2, 0, 0, 0, 0] (by decide)
      (by decide) (by decide)

/-! ## Streams

A lazily produced stream is embedded as the finite list of items it
yields, each item an `Except Error α` (futures `TryStream` items). -/

/-- Model of a hyper `Body` (external dependency): it yields a sequence of
data chunks and then either ends or fails once; after an error hyper
yields no further chunks.  `stream_body` (src/transport.rs:487-495)
unfolds such a body into a stream whose items map data to `Ok` and the
failure to a terminal `Err`. -/
def stream_body {α : Type} (chunks : List α) (terminalErr : Option Error) :
    List (Except Error α) :=
  chunks.map .ok ++ (match terminalErr with
    | some e => [.error e]
    | none => [])

/-- Model of `serde_json::Deserializer::from_slice(..).into_iter()`
collected into a vector (src/lib.rs:368-372): repeatedly skip whitespace
and parse one top-level value; each parsed value is an `Ok` item; the
first failure is an `Err` item after which the iterator yields nothing
more (serde_json sets its `failed` flag). -/
def streamValuesF : Nat → List Char → List (Except Error Json)
  | 0, _ => []
  | fuel + 1, cs =>
    match skipWs cs with
    | [] => []
    | cs₁ =>
      match parseP (2 * cs₁.length + 2) .value cs₁ with
      | some (v, rest) => .ok v :: streamValuesF fuel rest
      | none => [.error .serdeJson]

def chunkValues (cs : List Char) : List (Except Error Json) :=
  streamValuesF (cs.length + 1) cs

/-- Embeds `Docker::stream_post_into_values` (src/lib.rs:354-378) over the
items delivered by the underlying chunk stream: each `Ok` chunk is parsed
into its complete top-level JSON values which are yielded in document
order before the next chunk is touched; an `Err` item of the chunk stream
is passed through unchanged (futures `and_then`/`try_flatten` semantics:
the combinators forward errors and keep polling the stream). -/
def stream_post_into_values : List (Except Error (List Char)) → List (Except Error Json)
  | [] => []
  | .error e :: rest => .error e :: stream_post_into_values rest
  | .ok c :: rest => chunkValues c ++ stream_post_into_values rest

/-- C4: for every delivered buffer the JSON value stream yields every
complete top-level JSON value of that buffer, in document order, before
any later buffer contributes items; in particular the single chunk
`{"a":1}{"b":2}` yields the value `{"a":1}` and then the value `{"b":2}`,
in that order. -/
theorem c4_json_value_stream :
    (∀ c : List Char, ∀ rest : List (Except Error (List Char)),
      stream_post_into_values (.ok c :: rest) =
        chunkValues c ++ stream_post_into_values rest) ∧
    stream_post_into_values [.ok ("\x7b\"a\":1\x7d\x7b\"b\":2\x7d" : String).data] =
      [.ok (.obj [("a", .num 1)]), .ok (.obj [("b", .num 2)])] := by
  constructor
  · intro c rest
    rfl
  · rfl

/-! ## C5: are errors terminal items? -/

/-- `true` iff no item of the stream follows an error item. -/
def errorTerminal : List (Except Error α) → Bool
  | [] => true
  | .ok _ :: rest => errorTerminal rest
  | .error _ :: rest => rest.isEmpty

/-- Counterexample to C5: the JSON value stream over the two delivered
chunks `"x"` (malformed) and `"1"` yields a SerializationError item and
then a further value item, so an error is not a terminal item of the
sequence. -/
theorem c5_error_not_terminal_counterexample :
    stream_post_into_values [.ok ("x" : String).data, .ok ("1" : String).data] =
      [.error .serdeJson, .ok (.num 1)] ∧
    errorTerminal
      (stream_post_into_values [.ok ("x" : String).data, .ok ("1" : String).data]) = false := by
  constructor
  · rfl
  · rfl

theorem errorTerminal_ok_append (xs : List α) (t : List (Except Error α)) :
    errorTerminal (xs.map .ok ++ t) = errorTerminal t := by
  induction xs with
  | nil => rfl
  | cons x xs ih => simpa [errorTerminal] using ih

def isOkItem : Except Error α → Bool
  | .ok _ => true
  | .error _ => false

theorem errorTerminal_allOk_append (xs t : List (Except Error α))
    (h : xs.all isOkItem) : errorTerminal (xs ++ t) = errorTerminal t := by
  induction xs with
  | nil => rfl
  | cons x xs ih =>
    cases x with
    | ok a =>
      simp only [List.all_cons, Bool.and_eq_true] at h
      simpa [errorTerminal] using ih h.2
    | error e => simp [isOkItem] at h

/-- The demultiplexed frame stream (spec §4.5/§7, tty.rs absent from the
sources): the frames decoded from the delivered chunks, then a terminal
error item — the underlying stream's error if it failed, otherwise a
TruncatedStreamError if the stream ended mid-frame. -/
def demux_items (chunks : List (List Nat)) (terminalErr : Option Error) :
    List (Except Error Frame) :=
  (demux chunks).frames.map .ok ++
    (match terminalErr with
     | some e => [.error e]
     | none =>
       if (demux chunks).st = DemuxState.awaitingHeader ∧ (demux chunks).rest = [] then []
       else [.error .truncatedStream])

/-- C5 as amended: the byte-chunk stream and the frame stream yield errors
only as terminal items, and the JSON value stream yields errors only as
terminal items provided every delivered chunk parses cleanly; but a
per-chunk SerializationError of the JSON value stream is followed by the
items of the remaining chunks (see the counterexample). -/
theorem c5_error_terminality_amended :
    (∀ chunks : List (List Nat), ∀ terminalErr : Option Error,
      errorTerminal (stream_body chunks terminalErr) = true) ∧
    (∀ chunks : List (List Nat), ∀ terminalErr : Option Error,
      errorTerminal (demux_items chunks terminalErr) = true) ∧
    (∀ chunks : List (List Char), ∀ terminalErr : Option Error,
      (∀ c ∈ chunks, (chunkValues c).all isOkItem) →
      errorTerminal (stream_post_into_values (stream_body chunks terminalErr)) = true) := by
  refine ⟨?_, ?_, ?_⟩
  · intro chunks terminalErr
    unfold stream_body
    rw [errorTerminal_ok_append]
    cases terminalErr <;> rfl
  · intro chunks terminalErr
    unfold demux_items
    rw [errorTerminal_ok_append]
    cases terminalErr with
    | some e => rfl
    | none =>
      by_cases h : (demux chunks).st = DemuxState.awaitingHeader ∧ (demux chunks).rest = []
      · simp [h, errorTerminal]
      · simp [h, errorTerminal]
  · intro chunks terminalErr h
    induction chunks with
    | nil =>
      cases terminalErr <;> rfl
    | cons c cs ih =>
      have hc : (chunkValues c).all isOkItem = true := h c (by simp)
      have hcs : ∀ x ∈ cs, (chunkValues x).all isOkItem := fun x hx => h x (by simp [hx])
      simp only [stream_body, List.map_cons, List.cons_append, stream_post_into_values]
      rw [errorTerminal_allOk_append _ _ hc]
      exact ih hcs

/-- C1: statuses 200/201/101/204 are success and the body is returned
un-consumed; any other status yields `Fault` carrying that numeric status,
whose message is the body's JSON `message` field when it parses as an
object containing one, otherwise the HTTP reason phrase, otherwise the
fixed string "unknown error code"; in particular status 404 with body
`{"message":"no such container"}` yields Fault{404, "no such container"}. -/
theorem c1_request_executor_classification :
    (∀ status : Nat, ∀ body : String,
      (status = 200 ∨ status = 201 ∨ status = 101 ∨ status = 204) →
      status_classify status body = .body body) ∧
    (∀ status : Nat, ∀ body m : String,
      ¬(status = 200 ∨ status = 201 ∨ status = 101 ∨ status = 204) →
      get_error_message body = some m →
      status_classify status body = .fault (.fault status m)) ∧
    (∀ status : Nat, ∀ body r : String,
      ¬(status = 200 ∨ status = 201 ∨ status = 101 ∨ status = 204) →
      get_error_message body = none → canonicalReason status = some r →
      status_classify status body = .fault (.fault status r)) ∧
    (∀ status : Nat, ∀ body : String,
      ¬(status = 200 ∨ status = 201 ∨ status = 101 ∨ status = 204) →
      get_error_message body = none → canonicalReason status = none →
      status_classify status body = .fault (.fault status "unknown error code")) ∧
    status_classify 404 "\x7b\"message\":\"no such container\"\x7d" =
      .fault (.fault 404 "no such container") := by
  refine ⟨?_, ?_, ?_, ?_, ?_⟩
  · intro status body h
    simp [status_classify, h]
  · intro status body m h hm
    simp [status_classify, h, hm]
  · intro status body r h hm hr
    simp [status_classify, h, hm, hr]
  · intro status body h hm hr
    simp [status_classify, h, hm, hr]
  · decide

/-- Witness for C1 at concrete inputs: a success status passes the body
through; a 500 with a non-JSON body falls back to the reason phrase; an
unregistered status falls back to "unknown error code". -/
theorem c1_request_executor_classification_witness :
    status_classify 200 "raw" = .body "raw" ∧
    status_classify 500 "oops" = .fault (.fault 500 "Internal Server Error") ∧
    status_classify 599 "oops" = .fault (.fault 599 "unknown error code") := by
  refine ⟨?_, ?_, ?_⟩
  · exact c1_request_executor_classification.1 200 "raw" (by decide)
  · exact c1_request_executor_classification.2.2.1 500 "oops" "Internal Server Error"
      (by decide) (by decide) (by decide)
  · exact c1_request_executor_classification.2.2.2.1 599 "oops"
      (by decide) (by decide) (by decide)

/-- Witness for the amended C5 at concrete inputs: a cleanly-parsing chunk
followed by a transport error gives a stream whose error is terminal. -/
theorem c5_error_terminality_amended_witness :
    errorTerminal
      (stream_post_into_values (stream_body [("1" : String).data] (some .network))) = true :=
  c5_error_terminality_amended.2.2 [("1" : String).data] (some .network) (by decide)

/-! ## ConnectionBackend construction (src/transport.rs, src/lib.rs) -/

/-- Model of a hyper `Client` (external dependency), reduced to the pool
configuration the claims are about.  hyper's default
`pool_max_idle_per_host` is `usize::MAX`. -/
structure HClient where
  poolMaxIdlePerHost : Nat
deriving DecidableEq, Repr

def usizeMax : Nat := 18446744073709551615

/-- `Client::builder().build(..)` with default pool settings. -/
def client_default : HClient :=
  ⟨usizeMax⟩

/-- Embeds the `Transport` enum (src/transport.rs:43-61); each variant
holds its pooled client and the host string / socket path. -/
inductive Transport where
  | tcp (client : HClient) (host : String)
  | encryptedTcp (client : HClient) (host : String)
  | unix (client : HClient) (path : String)
deriving DecidableEq, Repr

def Transport.poolMaxIdle : Transport → Nat
  | .tcp c _ => c.poolMaxIdlePerHost
  | .encryptedTcp c _ => c.poolMaxIdlePerHost
  | .unix c _ => c.poolMaxIdlePerHost

/-- Model of Rust `str::contains` with a non-empty literal pattern
(external standard library): does `pat` occur as a contiguous substring? -/
def listContainsSub (pat : List Char) : List Char → Bool
  | [] => pat.isEmpty
  | c :: rest => pat.isPrefixOf (c :: rest) || listContainsSub pat rest

/-- Model of Rust `str::replace` (external standard library): replace each
leftmost non-overlapping occurrence of `pat`; fuel-driven scan, one
character consumed per step. -/
def replaceAllF (pat rep : List Char) : Nat → List Char → List Char
  | 0, hay => hay
  | _ + 1, [] => []
  | fuel + 1, c :: rest =>
    if !pat.isEmpty && pat.isPrefixOf (c :: rest) then
      rep ++ replaceAllF pat rep fuel ((c :: rest).drop pat.length)
    else
      c :: replaceAllF pat rep fuel rest

def rust_contains (hay pat : String) : Bool :=
  listContainsSub pat.data hay.data

def rust_replace (hay pat rep : String) : String :=
  ⟨replaceAllF pat.data rep.data hay.data.length hay.data⟩

/-- The scheme rewrite of `Transport::from_tcp` / `get_docker_for_tcp`
(src/transport.rs:143-147, src/lib.rs:106-110): when the host string
contains "tcp://" it is replaced by "https://". -/
def rewrite_tcp_scheme (tcp_host_str : String) : String :=
  if rust_contains tcp_host_str "tcp://" then
    rust_replace tcp_host_str "tcp://" "https://"
  else tcp_host_str

/-- Embeds `Transport::from_tcp` under the `tls` feature
(src/transport.rs:117-160): the TLS material is configured through the
`DOCKER_CERT_PATH` directory (cert.pem/key.pem, plus ca.pem when
`DOCKER_TLS_VERIFY` is set); when it is present the EncryptedTcp backend
is selected and the scheme rewritten, otherwise plain Tcp.  Loading of the
PEM files themselves is outside the model. -/
def Transport.from_tcp (dockerCertPath : Option String) (tcp_host_str : String) : Transport :=
  match dockerCertPath with
  | some _ => .encryptedTcp client_default (rewrite_tcp_scheme tcp_host_str)
  | none => .tcp client_default tcp_host_str

/-- Embeds `Transport::from_unix_socket` (src/transport.rs:107-115):
`Client::builder().pool_max_idle_per_host(0).build(UnixConnector)`. -/
def Transport.from_unix_socket (socket_path : String) : Transport :=
  .unix ⟨0⟩ socket_path

/-- Embeds the `Docker` struct (src/lib.rs:70-72). -/
structure Docker where
  transport : Transport
deriving DecidableEq, Repr

/-- Embeds `get_docker_for_tcp` under the `tls` feature
(src/lib.rs:82-127), same selection logic as `Transport::from_tcp`. -/
def get_docker_for_tcp (dockerCertPath : Option String) (tcp_host_str : String) : Docker :=
  match dockerCertPath with
  | some _ => ⟨.encryptedTcp client_default (rewrite_tcp_scheme tcp_host_str)⟩
  | none => ⟨.tcp client_default tcp_host_str⟩

/-- Model of hyper `Uri` (external dependency): the resolved components
the sources read (`scheme_str`, `host`, `port_u16`, `path`). -/
structure Uri where
  scheme : String
  host : String
  port : Option Nat
  path : String
deriving DecidableEq, Repr

/-- The `tcp_host_str` computed by `Docker::host` / `Transport::from_uri`:
`"{scheme}://{host}:{port or 80}"`. -/
def tcp_host_str (uri : Uri) : String :=
  uri.scheme ++ "://" ++ uri.host ++ ":" ++ toString (uri.port.getD 80)

/-- Embeds `Docker::unix` (src/lib.rs:163-176):
`Client::builder().pool_max_idle_per_host(0).build(UnixConnector)`. -/
def Docker.unix (socket_path : String) : Docker :=
  ⟨.unix ⟨0⟩ socket_path⟩

/-- Embeds `Docker::host` with the `unix-socket` feature compiled in
(src/lib.rs:179-201): a `unix` scheme selects the Unix backend — built
with `Client::builder().build(UnixConnector)`, i.e. the default pool —
any other scheme goes through `get_docker_for_tcp`. -/
def Docker.host (dockerCertPath : Option String) (uri : Uri) : Docker :=
  if uri.scheme = "unix" then
    ⟨.unix client_default uri.path⟩
  else
    get_docker_for_tcp dockerCertPath (tcp_host_str uri)

/-- Model of Rust `str::strip_prefix` (external standard library). -/
def strip_pre (pat s : List Char) : Option (List Char) :=
  if pat.isPrefixOf s then some (s.drop pat.length) else none

/-- Embeds `Docker::new` with the `unix-socket` feature compiled in
(src/lib.rs:144-159): an environment override starting with `unix://` goes
to `Docker::unix` on the stripped path; any other override is parsed as a
URI (`parseUri` stands for hyper's external URI parser) and goes to
`Docker::host`; no override defaults to `Docker::unix` on
`/var/run/docker.sock`. -/
def Docker.new (dockerHostEnv : Option String) (dockerCertPath : Option String)
    (parseUri : String → Uri) : Docker :=
  match dockerHostEnv with
  | some host =>
    match strip_pre ("unix://".data) host.data with
    | some p => Docker.unix ⟨p⟩
    | none => Docker.host dockerCertPath (parseUri host)
  | none => Docker.unix "/var/run/docker.sock"

/-- Construction outcome for the configurations in which the sources can
panic: either a constructed value, a Rust panic carrying its message, or
an error value (present only so the spec's expectation of a returned
ConfigurationError is expressible; the sources never construct it). -/
inductive Constructed (α : Type) where
  | ok (value : α)
  | panicked (msg : String)
  | err (e : Error)
deriving DecidableEq, Repr

/-- Embeds `Docker::host` when the `unix-socket` feature is NOT compiled
in (src/lib.rs:196-197): the `unix` scheme arm is
`panic!("Unix socket support is disabled")`. -/
def Docker.host_nounix (dockerCertPath : Option String) (uri : Uri) : Constructed Docker :=
  if uri.scheme = "unix" then
    .panicked "Unix socket support is disabled"
  else
    .ok (get_docker_for_tcp dockerCertPath (tcp_host_str uri))

/-- Embeds `Transport::from_uri` when the `unix-socket` feature is NOT
compiled in (src/transport.rs:100-101): the `unix` scheme arm is
`panic!("Unix socket support is disabled")`. -/
def Transport.from_uri_nounix (dockerCertPath : Option String) (uri : Uri) :
    Constructed Transport :=
  if uri.scheme = "unix" then
    .panicked "Unix socket support is disabled"
  else
    .ok (Transport.from_tcp dockerCertPath (tcp_host_str uri))

/-- C7: for TCP-family connection descriptors, configured TLS material
selects the EncryptedTcp backend and rewrites the scheme of the outbound
request target to the secure form; without TLS material the plain Tcp
backend is selected and the host string is untouched.  The concrete
conjunct shows the rewrite on a tcp:// host string. -/
theorem c7_tcp_backend_selection :
    (∀ certs host : String,
      Transport.from_tcp (some certs) host =
        .encryptedTcp client_default (rewrite_tcp_scheme host)) ∧
    (∀ host : String, Transport.from_tcp none host = .tcp client_default host) ∧
    (∀ certs host : String,
      get_docker_for_tcp (some certs) host =
        ⟨.encryptedTcp client_default (rewrite_tcp_scheme host)⟩) ∧
    (∀ host : String, get_docker_for_tcp none host = ⟨.tcp client_default host⟩) ∧
    rewrite_tcp_scheme "tcp://127.0.0.1:2376" = "https://127.0.0.1:2376" ∧
    rewrite_tcp_scheme "http://localhost:8000" = "http://localhost:8000" := by
  refine ⟨fun _ _ => rfl, fun _ => rfl, fun _ _ => rfl, fun _ => rfl, ?_, ?_⟩
  · decide
  · decide

/-- Counterexample to C8: a client constructed over a domain-socket
descriptor via the endpoint-URI path (`Docker::host` with a unix-scheme
URI) keeps hyper's default connection pool, which retains idle
connections (`usize::MAX`), not the no-idle configuration. -/
theorem c8_host_unix_pool_counterexample :
    (Docker.host none ⟨"unix", "", none, "/docker.sock"⟩).transport.poolMaxIdle = usizeMax ∧
    usizeMax ≠ 0 := by
  constructor
  · rfl
  · decide

/-- C8 as amended: default construction and the explicit-socket-path
construction configure the domain-socket pool to keep no idle connections
(`pool_max_idle_per_host(0)`), as does `Docker::new` with a `unix://`
environment override; but `Docker::host` on a unix-scheme endpoint URI
builds the client with the default pool, which keeps idle connections. -/
theorem c8_unix_pool_amended :
    (∀ p : String, (Docker.unix p).transport.poolMaxIdle = 0) ∧
    (∀ p : String, (Transport.from_unix_socket p).poolMaxIdle = 0) ∧
    (∀ cert : Option String, ∀ parseUri : String → Uri,
      (Docker.new none cert parseUri).transport.poolMaxIdle = 0) ∧
    (∀ rest : String, ∀ cert : Option String, ∀ parseUri : String → Uri,
      (Docker.new (some ⟨"unix://".data ++ rest.data⟩) cert parseUri).transport.poolMaxIdle
        = 0) ∧
    (Docker.host none ⟨"unix", "", none, "/docker.sock"⟩).transport.poolMaxIdle = usizeMax := by
  refine ⟨fun _ => rfl, fun _ => rfl, fun _ _ => rfl, ?_, rfl⟩
  intro rest cert parseUri
  have hpre : ("unix://".data).isPrefixOf ("unix://".data ++ rest.data) = true := by
    simp [List.isPrefixOf_iff_prefix]
  simp only [Docker.new, strip_pre, hpre, if_pos, List.drop_left]
  rfl

/-- Counterexample to C9: with domain-socket support not compiled in, a
unix-scheme descriptor makes construction panic with
"Unix socket support is disabled"; it does not return a ConfigurationError
value. -/
theorem c9_configuration_error_counterexample :
    Docker.host_nounix none ⟨"unix", "", none, "/var/run/docker.sock"⟩ =
      .panicked "Unix socket support is disabled" ∧
    Docker.host_nounix none ⟨"unix", "", none, "/var/run/docker.sock"⟩ ≠
      .err .configuration := by
  constructor
  · rfl
  · decide

/-- C9 as amended: with domain-socket support not compiled in, every
unix-scheme descriptor makes construction itself fail — eagerly, before
any request exists — but by panicking with a fixed message rather than by
returning a ConfigurationError value. -/
theorem c9_nounix_eager_panic :
    (∀ cert : Option String, ∀ h p : String, ∀ port : Option Nat,
      Docker.host_nounix cert ⟨"unix", h, port, p⟩ =
        .panicked "Unix socket support is disabled") ∧
    (∀ cert : Option String, ∀ h p : String, ∀ port : Option Nat,
      Transport.from_uri_nounix cert ⟨"unix", h, port, p⟩ =
        .panicked "Unix socket support is disabled") := by
  constructor
  · intro cert h p port
    simp [Docker.host_nounix]
  · intro cert h p port
    simp [Transport.from_uri_nounix]

/-! ## Request building and execution (src/transport.rs) -/

/-- The ways assembling an HTTP request can fail in the model of the http
crate's request builder (external dependency): an invalid header name, an
invalid header value, or an invalid request target. -/
inductive BuildError where
  | invalidHeaderName
  | invalidHeaderValue
  | invalidUri
deriving DecidableEq, Repr

/-- A token character of a header name (model of the http crate's
`HeaderName` validation). -/
def is_tchar (c : Char) : Bool :=
  c.isAlphanum || c = '!' || c = '#' || c = '$' || c = '%' || c = '&' ||
    c = '*' || c = '+' || c = '-' || c = '.' || c = '^' || c = '_' ||
    c = '|' || c = '~' || c = Char.ofNat 39 || c = Char.ofNat 96

def is_valid_header_name (k : String) : Bool :=
  !k.isEmpty && k.data.all is_tchar

/-- Model of the http crate's `HeaderValue` validation: visible bytes plus
space and horizontal tab, no DEL, no other control characters. -/
def is_valid_header_value (v : String) : Bool :=
  v.data.all fun c => (32 ≤ c.toNat && c.toNat ≠ 127) || c.toNat = 9

/-- Shallow model of the http crate's `Uri` parsing: a request target is
accepted when non-empty and made of visible ASCII. -/
def is_valid_uri (u : String) : Bool :=
  !u.isEmpty && u.data.all fun c => 32 < c.toNat && c.toNat < 127

/-- The pending state of the http crate's request builder: method, uri and
the headers added so far. -/
structure BuilderParts where
  method : String
  uri : String
  headers : List (String × String)
deriving DecidableEq, Repr

/-- `Request::builder()`: the builder holds the first error encountered
and reports it when the request is finalized; before that it is the
accumulated parts. -/
def builder_new : Except BuildError BuilderParts :=
  .ok ⟨"", "", []⟩

def bmethod (b : Except BuildError BuilderParts) (m : String) :
    Except BuildError BuilderParts :=
  b.map fun p => { p with method := m }

def buri (b : Except BuildError BuilderParts) (u : String) :
    Except BuildError BuilderParts :=
  b.bind fun p => if is_valid_uri u then .ok { p with uri := u } else .error .invalidUri

def bheader (b : Except BuildError BuilderParts) (k v : String) :
    Except BuildError BuilderParts :=
  b.bind fun p =>
    if is_valid_header_name k then
      if is_valid_header_value v then .ok { p with headers := p.headers ++ [(k, v)] }
      else .error .invalidHeaderValue
    else .error .invalidHeaderName

/-- A finished HTTP request. -/
structure HttpRequest where
  method : String
  uri : String
  headers : List (String × String)
  reqBody : Option String
deriving DecidableEq, Repr

/-- `builder.body(..)`: finalize the request or surface the stored
error. -/
def bbody (b : Except BuildError BuilderParts) (x : Option String) :
    Except BuildError HttpRequest :=
  b.map fun p => ⟨p.method, p.uri, p.headers, x⟩

/-- Model of `hyperlocal::Uri::new(path, endpoint)` (external dependency):
the socket-path-scoped request target of the domain-socket backend. -/
def domain_uri (path endpoint : String) : String :=
  "unix://" ++ path ++ ":0" ++ endpoint

/-- The backend-specific method/target stage of `Transport::build_request`
(src/transport.rs:328-345): host-prefixed target for the TCP backends, a
socket-path-scoped target for the domain-socket backend. -/
def target_builder (t : Transport) (method endpoint : String)
    (builder : Except BuildError BuilderParts) : Except BuildError BuilderParts :=
  match t with
  | .tcp _ host => buri (bmethod builder method) (host ++ endpoint)
  | .encryptedTcp _ host => buri (bmethod builder method) (host ++ endpoint)
  | .unix _ path => buri (bmethod builder method) (domain_uri path endpoint)

/-- The extra-headers stage of `Transport::build_request`
(src/transport.rs:348-352). -/
def extra_headers (headers : Option (List (String × String)))
    (b : Except BuildError BuilderParts) : Except BuildError BuilderParts :=
  match headers with
  | some hs => hs.foldl (fun r kv => bheader r kv.1 kv.2) b
  | none => b

/-- The body stage of `Transport::build_request` (src/transport.rs:354-359):
with a body, set the content-type header and the body; otherwise an empty
body. -/
def finish_body (body : Option (String × String))
    (b : Except BuildError BuilderParts) : Except BuildError HttpRequest :=
  match body with
  | some (x, mimeType) => bbody (bheader b "content-type" mimeType) (some x)
  | none => bbody b none

/-- Embeds `Transport::build_request` (src/transport.rs:316-360): set
method and backend-specific absolute target, always set an empty Host
header, add the caller's extra headers, then set the content-type header
and body when a body is given. -/
def build_request (t : Transport) (method endpoint : String)
    (body : Option (String × String)) (headers : Option (List (String × String)))
    (builder : Except BuildError BuilderParts) : Except BuildError HttpRequest :=
  finish_body body
    (extra_headers headers (bheader (target_builder t method endpoint builder) "host" ""))

/-- Embeds `Transport::get_body` (src/transport.rs:242-282): build the
request — `.expect("Failed to build request!")` panics when building
fails — send it, and classify the response status. -/
def get_body (t : Transport) (method endpoint : String)
    (body : Option (String × String)) (headers : Option (List (String × String)))
    (resp : HttpResponse) : ReqOutcome :=
  match build_request t method endpoint body headers builder_new with
  | .error _ => .panicked "Failed to build request!"
  | .ok _ => status_classify resp.status resp.body

/-- Outcome of `Transport::stream_upgrade_tokio`: panic, an upgraded raw
duplex byte stream bound to the underlying connection
(`hyper::upgrade::on`), or an error. -/
inductive UpgradeOutcome where
  | panicked (msg : String)
  | upgraded
  | err (e : Error)
deriving DecidableEq, Repr

/-- The builder `stream_upgrade_tokio` starts from:
`Request::builder().header(CONNECTION, "Upgrade").header(UPGRADE, "tcp")`. -/
def upgrade_builder : Except BuildError BuilderParts :=
  bheader (bheader builder_new "connection" "Upgrade") "upgrade" "tcp"

/-- Embeds `Transport::stream_upgrade_tokio` (src/transport.rs:381-408):
build the upgrade request (panicking if building fails), send it, and
return the upgraded connection exactly on status 101
(SWITCHING_PROTOCOLS); any other status is `Error::ConnectionNotUpgraded`
and the response body is never inspected. -/
def stream_upgrade_tokio (t : Transport) (method endpoint : String)
    (body : Option (String × String)) (resp : HttpResponse) : UpgradeOutcome :=
  match build_request t method endpoint body none upgrade_builder with
  | .error _ => .panicked "Failed to build request!"
  | .ok _ =>
    if resp.status = 101 then .upgraded
    else .err .connectionNotUpgraded

/-! ### Builder steps only ever append headers -/

/-- Builder step relation: whenever the later builder state is intact, the
earlier one is too, and its headers are a prefix of the later ones. -/
def hdr_ext (b b' : Except BuildError BuilderParts) : Prop :=
  ∀ q, b' = .ok q → ∃ p, b = .ok p ∧ ∃ tl, q.headers = p.headers ++ tl

theorem hdr_ext_refl (b : Except BuildError BuilderParts) : hdr_ext b b :=
  fun q h => ⟨q, h, [], by simp⟩

theorem hdr_ext_trans {a b c : Except BuildError BuilderParts}
    (h1 : hdr_ext a b) (h2 : hdr_ext b c) : hdr_ext a c := by
  intro q hq
  obtain ⟨p, hp, tl, htl⟩ := h2 q hq
  obtain ⟨p', hp', tl', htl'⟩ := h1 p hp
  exact ⟨p', hp', tl' ++ tl, by simp [htl, htl']⟩

theorem hdr_ext_bmethod (b : Except BuildError BuilderParts) (m : String) :
    hdr_ext b (bmethod b m) := by
  intro q hq
  cases b with
  | error e => simp [bmethod, Except.map] at hq
  | ok p =>
    refine ⟨p, rfl, [], ?_⟩
    simp only [bmethod, Except.map, Except.ok.injEq] at hq
    simp [← hq]

theorem hdr_ext_buri (b : Except BuildError BuilderParts) (u : String) :
    hdr_ext b (buri b u) := by
  intro q hq
  cases b with
  | error e => simp [buri, Except.bind] at hq
  | ok p =>
    refine ⟨p, rfl, [], ?_⟩
    simp only [buri, Except.bind] at hq
    by_cases hv : is_valid_uri u
    · simp only [hv, if_true, Except.ok.injEq] at hq
      simp [← hq]
    · simp [hv] at hq

theorem hdr_ext_bheader (b : Except BuildError BuilderParts) (k v : String) :
    hdr_ext b (bheader b k v) := by
  intro q hq
  cases b with
  | error e => simp [bheader, Except.bind] at hq
  | ok p =>
    refine ⟨p, rfl, ?_⟩
    simp only [bheader, Except.bind] at hq
    by_cases hk : is_valid_header_name k
    · by_cases hv : is_valid_header_value v
      · simp only [hk, hv, if_true, Except.ok.injEq] at hq
        exact ⟨[(k, v)], by simp [← hq]⟩
      · simp [hk, hv] at hq
    · simp [hk] at hq

theorem hdr_ext_foldl : ∀ hs : List (String × String), ∀ b : Except BuildError BuilderParts,
    hdr_ext b (hs.foldl (fun r kv => bheader r kv.1 kv.2) b) := by
  intro hs
  induction hs with
  | nil => intro b; exact hdr_ext_refl b
  | cons kv hs ih =>
    intro b
    simp only [List.foldl_cons]
    exact hdr_ext_trans (hdr_ext_bheader b kv.1 kv.2) (ih (bheader b kv.1 kv.2))

theorem bbody_ok_inv (b : Except BuildError BuilderParts) (x : Option String)
    (req : HttpRequest) (h : bbody b x = .ok req) :
    ∃ p, b = .ok p ∧ req.headers = p.headers := by
  cases b with
  | error e => simp [bbody, Except.map] at h
  | ok p =>
    refine ⟨p, rfl, ?_⟩
    simp only [bbody, Except.map, Except.ok.injEq] at h
    simp [← h]

theorem hdr_ext_target (t : Transport) (m e : String)
    (b : Except BuildError BuilderParts) : hdr_ext b (target_builder t m e b) := by
  cases t with
  | tcp c host => exact hdr_ext_trans (hdr_ext_bmethod _ m) (hdr_ext_buri _ _)
  | encryptedTcp c host => exact hdr_ext_trans (hdr_ext_bmethod _ m) (hdr_ext_buri _ _)
  | unix c path => exact hdr_ext_trans (hdr_ext_bmethod _ m) (hdr_ext_buri _ _)

theorem hdr_ext_extra (hs : Option (List (String × String)))
    (b : Except BuildError BuilderParts) : hdr_ext b (extra_headers hs b) := by
  cases hs with
  | some l => exact hdr_ext_foldl l b
  | none => exact hdr_ext_refl b

theorem finish_body_ok_inv (body : Option (String × String))
    (b : Except BuildError BuilderParts) (req : HttpRequest)
    (h : finish_body body b = .ok req) :
    ∃ p, b = .ok p ∧ ∃ tl, req.headers = p.headers ++ tl := by
  cases body with
  | some bm =>
    obtain ⟨x, mt⟩ := bm
    simp only [finish_body] at h
    obtain ⟨q, hq, hhdrs⟩ := bbody_ok_inv _ _ _ h
    obtain ⟨p, hp, tl, htl⟩ := hdr_ext_bheader b "content-type" mt q hq
    exact ⟨p, hp, tl, by rw [hhdrs, htl]⟩
  | none =>
    simp only [finish_body] at h
    obtain ⟨q, hq, hhdrs⟩ := bbody_ok_inv _ _ _ h
    exact ⟨q, hq, [], by simp [hhdrs]⟩

/-- Every header of the starting builder state survives into the finished
request: `build_request` only ever appends headers. -/
theorem build_request_ok_mem (t : Transport) (m e : String)
    (body : Option (String × String)) (hs : Option (List (String × String)))
    (p : BuilderParts) (req : HttpRequest)
    (hb : build_request t m e body hs (.ok p) = .ok req) :
    ∀ kv ∈ p.headers, kv ∈ req.headers := by
  intro kv hkv
  unfold build_request at hb
  obtain ⟨q, hq, tl, htl⟩ := finish_body_ok_inv _ _ _ hb
  have hext : hdr_ext (.ok p)
      (extra_headers hs (bheader (target_builder t m e (.ok p)) "host" "")) :=
    hdr_ext_trans (hdr_ext_trans (hdr_ext_target t m e _) (hdr_ext_bheader _ _ _))
      (hdr_ext_extra hs _)
  obtain ⟨p', hp', tl', htl'⟩ := hext q hq
  have hpp : p' = p := by simpa using hp'.symm
  subst hpp
  rw [htl, htl']
  simp [hkv]

theorem foldl_bheader_error (l : List (String × String)) (e : BuildError) :
    l.foldl (fun r kv => bheader r kv.1 kv.2) (.error e) = .error e := by
  induction l with
  | nil => rfl
  | cons kv l ih => simpa [bheader, Except.bind] using ih

theorem finish_body_error (body : Option (String × String)) (e : BuildError) :
    finish_body body (.error e) = .error e := by
  cases body with
  | some bm => obtain ⟨x, mt⟩ := bm; rfl
  | none => rfl

theorem status_classify_ne_panicked (s : Nat) (b msg : String) :
    status_classify s b ≠ .panicked msg := by
  unfold status_classify
  split <;> simp

/-- C6: the upgrade request carries `Connection: Upgrade` and
`Upgrade: tcp`; the call returns the raw duplex stream exactly when the
response status is 101 (any other status yields the upgrade-rejected
error, shiplift's `Error::ConnectionNotUpgraded`); and the response body
is never inspected — it is discarded whatever the status. -/
theorem c6_upgrade_channel :
    (∀ t : Transport, ∀ m ep : String, ∀ body : Option (String × String),
     ∀ req : HttpRequest,
      build_request t m ep body none upgrade_builder = .ok req →
      ("connection", "Upgrade") ∈ req.headers ∧ ("upgrade", "tcp") ∈ req.headers) ∧
    (∀ t : Transport, ∀ m ep : String, ∀ body : Option (String × String),
     ∀ resp : HttpResponse, ∀ req : HttpRequest,
      build_request t m ep body none upgrade_builder = .ok req →
      ((stream_upgrade_tokio t m ep body resp = .upgraded ↔ resp.status = 101) ∧
       (resp.status ≠ 101 →
         stream_upgrade_tokio t m ep body resp = .err .connectionNotUpgraded))) ∧
    (∀ t : Transport, ∀ m ep : String, ∀ body : Option (String × String),
     ∀ s : Nat, ∀ b₁ b₂ : String,
      stream_upgrade_tokio t m ep body ⟨s, b₁⟩ = stream_upgrade_tokio t m ep body ⟨s, b₂⟩) := by
  refine ⟨?_, ?_, ?_⟩
  · intro t m ep body req hb
    have hub : upgrade_builder =
        .ok ⟨"", "", [("connection", "Upgrade"), ("upgrade", "tcp")]⟩ := rfl
    rw [hub] at hb
    have hmem := build_request_ok_mem t m ep body none _ req hb
    exact ⟨hmem _ (by simp), hmem _ (by simp)⟩
  · intro t m ep body resp req hb
    unfold stream_upgrade_tokio
    rw [hb]
    constructor
    · by_cases hst : resp.status = 101 <;> simp [hst]
    · intro hst
      simp [hst]
  · intro t m ep body s b₁ b₂
    rfl

/-- Witness for C6 at a concrete request over the Tcp backend: a 101
response upgrades; a 200 response with a body yields
ConnectionNotUpgraded. -/
theorem c6_upgrade_channel_witness :
    stream_upgrade_tokio (.tcp client_default "http://localhost:2375") "POST"
      "/containers/x/attach" none ⟨101, ""⟩ = .upgraded ∧
    stream_upgrade_tokio (.tcp client_default "http://localhost:2375") "POST"
      "/containers/x/attach" none ⟨200, "ignored"⟩ = .err .connectionNotUpgraded := by
  constructor
  · exact (c6_upgrade_channel.2.1 (.tcp client_default "http://localhost:2375") "POST"
      "/containers/x/attach" none ⟨101, ""⟩
      ⟨"POST", "http://localhost:2375/containers/x/attach",
        [("connection", "Upgrade"), ("upgrade", "tcp"), ("host", "")], none⟩
      rfl).1.mpr rfl
  · exact (c6_upgrade_channel.2.1 (.tcp client_default "http://localhost:2375") "POST"
      "/containers/x/attach" none ⟨200, "ignored"⟩
      ⟨"POST", "http://localhost:2375/containers/x/attach",
        [("connection", "Upgrade"), ("upgrade", "tcp"), ("host", "")], none⟩
      rfl).2 (by decide)

/-- C10: the executors panic via `expect("Failed to build request!")`
exactly when the HTTP request cannot be assembled — no error value is ever
returned for a build failure — and an invalid caller-supplied extra header
name forces that panic. -/
theorem c10_build_failure_panics :
    (∀ t : Transport, ∀ m ep : String, ∀ body : Option (String × String),
     ∀ hs : Option (List (String × String)), ∀ resp : HttpResponse,
      ((∃ err, build_request t m ep body hs builder_new = .error err) ↔
        get_body t m ep body hs resp = .panicked "Failed to build request!")) ∧
    (∀ t : Transport, ∀ m ep : String, ∀ body : Option (String × String),
     ∀ resp : HttpResponse,
      ((∃ err, build_request t m ep body none upgrade_builder = .error err) ↔
        stream_upgrade_tokio t m ep body resp = .panicked "Failed to build request!")) ∧
    (∀ t : Transport, ∀ m ep : String, ∀ body : Option (String × String),
     ∀ resp : HttpResponse, ∀ k v : String, ∀ rest : List (String × String),
      is_valid_header_name k = false →
      get_body t m ep body (some ((k, v) :: rest)) resp =
        .panicked "Failed to build request!") := by
  refine ⟨?_, ?_, ?_⟩
  · intro t m ep body hs resp
    constructor
    · rintro ⟨err, herr⟩
      unfold get_body
      rw [herr]
    · intro h
      unfold get_body at h
      cases hbr : build_request t m ep body hs builder_new with
      | error err => exact ⟨err, rfl⟩
      | ok req =>
        rw [hbr] at h
        exact absurd h (status_classify_ne_panicked _ _ _)
  · intro t m ep body resp
    constructor
    · rintro ⟨err, herr⟩
      unfold stream_upgrade_tokio
      rw [herr]
    · intro h
      unfold stream_upgrade_tokio at h
      cases hbr : build_request t m ep body none upgrade_builder with
      | error err => exact ⟨err, rfl⟩
      | ok req =>
        rw [hbr] at h
        by_cases hst : resp.status = 101 <;> simp [hst] at h
  · intro t m ep body resp k v rest hk
    have key : ∀ b2 : Except BuildError BuilderParts,
        ∃ e', ((k, v) :: rest).foldl (fun r kv => bheader r kv.1 kv.2) b2 = .error e' := by
      intro b2
      rw [List.foldl_cons]
      have hfirst : ∃ e', bheader b2 k v = .error e' := by
        cases b2 with
        | error e' => exact ⟨e', rfl⟩
        | ok p => exact ⟨.invalidHeaderName, by simp [bheader, Except.bind, hk]⟩
      obtain ⟨e', he'⟩ := hfirst
      rw [he', foldl_bheader_error]
      exact ⟨e', rfl⟩
    obtain ⟨e', he'⟩ :=
      key (bheader (target_builder t m ep builder_new) "host" "")
    have hbr : build_request t m ep body (some ((k, v) :: rest)) builder_new = .error e' := by
      unfold build_request
      simp only [extra_headers]
      rw [he', finish_body_error]
    unfold get_body
    rw [hbr]

/-- Witness for C10: a caller-supplied extra header whose name contains a
space makes `get_body` panic with the `expect` message. -/
theorem c10_build_failure_panics_witness :
    get_body (.tcp client_default "http://localhost:2375") "GET" "/info" none
      (some [("bad name", "v")]) ⟨200, ""⟩ = .panicked "Failed to build request!" :=
  c10_build_failure_panics.2.2 (.tcp client_default "http://localhost:2375") "GET" "/info"
    none ⟨200, ""⟩ "bad name" "v" [] (by decide)

end Shiplift
